import Mathlib

/-!
# Verification of the Evolu crypto core (`packages/evolu-common/src/Crypto.ts`)

Shallow embedding of the key-derivation and authenticated-encryption layer:

* SLIP-21 hierarchical key derivation (`slip21Derive`), built on HMAC-SHA512;
* the NaCl secretbox (XSalsa20-Poly1305) `seal`/`open` pair (`SecretBoxLive`);
* NodeId validation (`NodeId` schema pattern) and generation (`nanoidForNodeId`).

Byte sequences (`Uint8Array` values in the source) are modelled as `List Nat`
with every byte reduced modulo 256 where the machine representation matters.
The hash/cipher primitives (`@noble/hashes` sha512/hmac, `@noble/ciphers`
salsa) are external dependencies of the repository; they are modelled here
from their public standards (FIPS 180-4, RFC 2104, the NaCl secretbox
construction), which is the behaviour the source imports.
-/

/-- Bytes of a `Uint8Array`: a list of naturals, each intended `< 256`. -/
abbrev Bytes := List Nat

/-- `2^64`, the modulus of 64-bit words. -/
def w64 : Nat := 2 ^ 64

/-- Right rotation of a 64-bit word. -/
def rotr64 (x n : Nat) : Nat := ((x >>> n) ||| (x <<< (64 - n))) % w64

/-- Big-endian serialization of `x` into `n` bytes. -/
def toBytesBE : Nat → Nat → Bytes
  | 0, _ => []
  | n + 1, x => toBytesBE n (x / 256) ++ [x % 256]

/-- Big-endian read of a byte list as one natural. -/
def bytesToNatBE (bs : Bytes) : Nat := bs.foldl (fun acc b => acc * 256 + b % 256) 0

/-- JavaScript `TypedArray.prototype.slice(s, e)` on byte arrays
(non-negative indices, clamped): elements `[s, e)`, freshly copied. -/
def jsSlice (a : Bytes) (s e : Nat) : Bytes := (a.take e).drop s

/-- JavaScript `TypedArray.prototype.set(src, off)`: overwrite `dst`
starting at `off` with `src` (in-range use, as in the source). -/
def uint8ArraySet (dst src : Bytes) (off : Nat) : Bytes :=
  dst.take off ++ src ++ dst.drop (off + src.length)

/-- UTF-8 encoding of one Unicode scalar value (`TextEncoder` behaviour). -/
def utf8EncodeCharBytes (c : Char) : Bytes :=
  let n := c.toNat
  if n < 0x80 then [n]
  else if n < 0x800 then [0xc0 ||| (n >>> 6), 0x80 ||| (n % 64)]
  else if n < 0x10000 then
    [0xe0 ||| (n >>> 12), 0x80 ||| ((n >>> 6) % 64), 0x80 ||| (n % 64)]
  else
    [0xf0 ||| (n >>> 18), 0x80 ||| ((n >>> 12) % 64), 0x80 ||| ((n >>> 6) % 64),
      0x80 ||| (n % 64)]

/-- UTF-8 encoding of a string (`new TextEncoder().encode(s)`). -/
def utf8Encode (s : String) : Bytes :=
  s.data.foldr (fun c acc => utf8EncodeCharBytes c ++ acc) []

/-! ## SHA-512 (FIPS 180-4), the hash primitive the source imports -/

/-- The 80 SHA-512 round constants. -/
def sha512K : List Nat := [
  4794697086780616226, 8158064640168781261, 13096744586834688815,
  16840607885511220156, 4131703408338449720, 6480981068601479193,
  10538285296894168987, 12329834152419229976, 15566598209576043074,
  1334009975649890238, 2608012711638119052, 6128411473006802146,
  8268148722764581231, 9286055187155687089, 11230858885718282805,
  13951009754708518548, 16472876342353939154, 17275323862435702243,
  1135362057144423861, 2597628984639134821, 3308224258029322869,
  5365058923640841347, 6679025012923562964, 8573033837759648693,
  10970295158949994411, 12119686244451234320, 12683024718118986047,
  13788192230050041572, 14330467153632333762, 15395433587784984357,
  489312712824947311, 1452737877330783856, 2861767655752347644,
  3322285676063803686, 5560940570517711597, 5996557281743188959,
  7280758554555802590, 8532644243296465576, 9350256976987008742,
  10552545826968843579, 11727347734174303076, 12113106623233404929,
  14000437183269869457, 14369950271660146224, 15101387698204529176,
  15463397548674623760, 17586052441742319658, 1182934255886127544,
  1847814050463011016, 2177327727835720531, 2830643537854262169,
  3796741975233480872, 4115178125766777443, 5681478168544905931,
  6601373596472566643, 7507060721942968483, 8399075790359081724,
  8693463985226723168, 9568029438360202098, 10144078919501101548,
  10430055236837252648, 11840083180663258601, 13761210420658862357,
  14299343276471374635, 14566680578165727644, 15097957966210449927,
  16922976911328602910, 17689382322260857208, 500013540394364858,
  748580250866718886, 1242879168328830382, 1977374033974150939,
  2944078676154940804, 3659926193048069267, 4368137639120453308,
  4836135668995329356, 5532061633213252278, 6448918945643986474,
  6902733635092675308, 7801388544844847127]

/-- SHA-512 initial hash value. -/
def sha512H0 : List Nat := [
  7640891576956012808, 13503953896175478587, 4354685564936845355,
  11912009170470909681, 5840696475078001361, 11170449401992604703,
  2270897969802886507, 6620516959819538809]

/-- Split a byte list into the 16 big-endian 64-bit words of one block. -/
def blockWords : Nat → Bytes → List Nat
  | 0, _ => []
  | n + 1, bs => bytesToNatBE (bs.take 8) :: blockWords n (bs.drop 8)

/-- Message-schedule small sigma 0. -/
def ssig0 (x : Nat) : Nat := rotr64 x 1 ^^^ rotr64 x 8 ^^^ (x >>> 7)

/-- Message-schedule small sigma 1. -/
def ssig1 (x : Nat) : Nat := rotr64 x 19 ^^^ rotr64 x 61 ^^^ (x >>> 6)

/-- Extend a 16-word schedule by `n` further words (`W[t]` for `t ≥ 16`). -/
def extendW : Nat → List Nat → List Nat
  | 0, W => W
  | n + 1, W =>
    let t := W.length
    extendW n (W ++ [(W.getD (t - 16) 0 + ssig0 (W.getD (t - 15) 0) +
      W.getD (t - 7) 0 + ssig1 (W.getD (t - 2) 0)) % w64])

/-- The running state of the SHA-512 compression rounds. -/
abbrev Sha512St := Nat × Nat × Nat × Nat × Nat × Nat × Nat × Nat

/-- The 80 compression rounds, consuming constants and schedule in step. -/
def sha512Rounds : List Nat → List Nat → Sha512St → Sha512St
  | [], _, st => st
  | _ :: _, [], st => st
  | k :: ks, w :: ws, (a, b, c, d, e, f, g, h) =>
    let S1 := rotr64 e 14 ^^^ rotr64 e 18 ^^^ rotr64 e 41
    let ch := (e &&& f) ^^^ ((e ^^^ (w64 - 1)) &&& g)
    let t1 := (h + S1 + ch + k + w) % w64
    let S0 := rotr64 a 28 ^^^ rotr64 a 34 ^^^ rotr64 a 39
    let mj := (a &&& b) ^^^ (a &&& c) ^^^ (b &&& c)
    let t2 := (S0 + mj) % w64
    sha512Rounds ks ws ((t1 + t2) % w64, a, b, c, (d + t1) % w64, e, f, g)

/-- One SHA-512 compression: update the 8-word chaining value by a block. -/
def sha512Compress (H : List Nat) (block : Bytes) : List Nat :=
  let W := extendW 64 (blockWords 16 block)
  let st := sha512Rounds sha512K W
    (H.getD 0 0, H.getD 1 0, H.getD 2 0, H.getD 3 0,
     H.getD 4 0, H.getD 5 0, H.getD 6 0, H.getD 7 0)
  [(H.getD 0 0 + st.1) % w64, (H.getD 1 0 + st.2.1) % w64,
   (H.getD 2 0 + st.2.2.1) % w64, (H.getD 3 0 + st.2.2.2.1) % w64,
   (H.getD 4 0 + st.2.2.2.2.1) % w64, (H.getD 5 0 + st.2.2.2.2.2.1) % w64,
   (H.getD 6 0 + st.2.2.2.2.2.2.1) % w64, (H.getD 7 0 + st.2.2.2.2.2.2.2) % w64]

/-- Merkle–Damgård padding: `0x80`, zeros, then the 128-bit bit length. -/
def sha512Pad (msg : Bytes) : Bytes :=
  msg ++ [0x80] ++ List.replicate ((239 - msg.length % 128) % 128) 0 ++
    toBytesBE 16 (8 * msg.length)

/-- Split a padded message into its 128-byte blocks (fuel-structural). -/
def chunks128 : Nat → Bytes → List Bytes
  | 0, _ => []
  | _ + 1, [] => []
  | fuel + 1, bs => bs.take 128 :: chunks128 fuel (bs.drop 128)

/-- SHA-512 of a byte sequence: 64 bytes. -/
def sha512 (msg : Bytes) : Bytes :=
  let padded := sha512Pad msg
  (((chunks128 padded.length padded).foldl sha512Compress sha512H0).map
    (toBytesBE 8)).flatten

/-! ## HMAC-SHA512 (RFC 2104), as `hmac(sha512, key, msg)` in the source -/

/-- HMAC-SHA512 with block size 128. -/
def hmacSha512 (key msg : Bytes) : Bytes :=
  let k0 := if 128 < key.length then sha512 key else key
  let k := k0 ++ List.replicate (128 - k0.length) 0
  sha512 ((k.map (· ^^^ 0x5c)) ++ sha512 ((k.map (· ^^^ 0x36)) ++ msg))

/-! ## SLIP-21 derivation (`slip21Derive` in the source) -/

/-- One iteration of the source's `for` loop: from the current `m` and a
path label, build `e = new Uint8Array(p.byteLength + 1); e[0] = 0;
e.set(p, 1)` and return `hmac(sha512, m.slice(0, 32), e)`. -/
def slip21Step (m : Bytes) (label : String) : Bytes :=
  let p := utf8Encode label
  let e0 := List.replicate (p.length + 1) 0
  let e1 := e0.set 0 0
  let e := uint8ArraySet e1 p 1
  hmacSha512 (jsSlice m 0 32) e

/-- Embedding of `slip21Derive` (Crypto.ts lines 67-81): start from
`m = hmac(sha512, "Symmetric key seed", seed)`, run the loop over the
path labels, and return `m.slice(32, 64)`. The surrounding
`Effect.sync` wrapper only defers this pure computation. -/
def slip21Derive (seed : Bytes) (path : List String) : Bytes :=
  let m := hmacSha512 (utf8Encode "Symmetric key seed") seed
  jsSlice (path.foldl slip21Step m) 32 64

/-- Formalisation of the spec's words (§4.2): for each label in path
order set `m = HMAC-SHA512(key = m[0:32], data = 0x00 ‖ utf8(label))`,
then return `m[32:64]`. -/
def slip21SpecNode (m : Bytes) : List String → Bytes
  | [] => jsSlice m 32 64
  | l :: ls => slip21SpecNode (hmacSha512 (jsSlice m 0 32) (0 :: utf8Encode l)) ls

/-- Formalisation of the spec's words (§4.2), root step included:
`m = HMAC-SHA512(key = "Symmetric key seed", data = seed)`, then
the per-label recursion. -/
def slip21SpecDerive (seed : Bytes) (path : List String) : Bytes :=
  slip21SpecNode (hmacSha512 (utf8Encode "Symmetric key seed") seed) path

/-! ## XSalsa20-Poly1305 secretbox (the `@noble/ciphers` primitive the
source imports), following the NaCl `crypto_secretbox` construction -/

/-- `2^32`, the modulus of 32-bit words. -/
def w32 : Nat := 2 ^ 32

/-- Left rotation of a 32-bit word. -/
def rotl32 (x n : Nat) : Nat := ((x <<< n) ||| (x >>> (32 - n))) % w32

/-- 32-bit modular addition. -/
def add32 (a b : Nat) : Nat := (a + b) % w32

/-- Little-endian read of a byte list as one natural. -/
def bytesToNatLE (bs : Bytes) : Nat := bs.foldr (fun b acc => acc * 256 + b % 256) 0

/-- Little-endian serialization of `x` into `n` bytes. -/
def toBytesLE : Nat → Nat → Bytes
  | 0, _ => []
  | n + 1, x => x % 256 :: toBytesLE n (x / 256)

/-- Split a byte list into `n` little-endian 32-bit words. -/
def wordsLE : Nat → Bytes → List Nat
  | 0, _ => []
  | n + 1, bs => bytesToNatLE (bs.take 4) :: wordsLE n (bs.drop 4)

/-- Salsa20 quarterround on state positions `ia ib ic id`. -/
def salsaQR (st : List Nat) (ia ib ic id : Nat) : List Nat :=
  let a := st.getD ia 0
  let b := st.getD ib 0
  let c := st.getD ic 0
  let d := st.getD id 0
  let b := b ^^^ rotl32 (add32 a d) 7
  let c := c ^^^ rotl32 (add32 b a) 9
  let d := d ^^^ rotl32 (add32 c b) 13
  let a := a ^^^ rotl32 (add32 d c) 18
  (((st.set ia a).set ib b).set ic c).set id d

/-- Salsa20 columnround. -/
def salsaColumnRound (st : List Nat) : List Nat :=
  salsaQR (salsaQR (salsaQR (salsaQR st 0 4 8 12) 5 9 13 1) 10 14 2 6) 15 3 7 11

/-- Salsa20 rowround. -/
def salsaRowRound (st : List Nat) : List Nat :=
  salsaQR (salsaQR (salsaQR (salsaQR st 0 1 2 3) 5 6 7 4) 10 11 8 9) 15 12 13 14

/-- `n` Salsa20 double rounds (a column round then a row round each). -/
def salsaDoubleRounds : Nat → List Nat → List Nat
  | 0, st => st
  | n + 1, st => salsaDoubleRounds n (salsaRowRound (salsaColumnRound st))

/-- Initial Salsa20 state: `"expand 32-byte k"` constants, the 8 key words,
and 4 input words (nonce/counter) in the standard layout. -/
def salsaInit (key : Bytes) (input : List Nat) : List Nat :=
  let k := wordsLE 8 key
  [0x61707865, k.getD 0 0, k.getD 1 0, k.getD 2 0,
   k.getD 3 0, 0x3320646e, input.getD 0 0, input.getD 1 0,
   input.getD 2 0, input.getD 3 0, 0x79622d32, k.getD 4 0,
   k.getD 5 0, k.getD 6 0, k.getD 7 0, 0x6b206574]

/-- One 64-byte Salsa20 keystream block for an 8-byte nonce and a counter. -/
def salsa20Block (key nonce8 : Bytes) (ctr : Nat) : Bytes :=
  let n := wordsLE 2 nonce8
  let st := salsaInit key [n.getD 0 0, n.getD 1 0, ctr % w32, (ctr / w32) % w32]
  ((List.zipWith add32 st (salsaDoubleRounds 10 st)).map (toBytesLE 4)).flatten

/-- HSalsa20: the Salsa20 core on a 16-byte nonce, without the final
addition; words 0, 5, 10, 15, 6, 7, 8, 9 form the 32-byte subkey. -/
def hsalsa20 (key nonce16 : Bytes) : Bytes :=
  let st := salsaInit key (wordsLE 4 nonce16)
  let z := salsaDoubleRounds 10 st
  ([z.getD 0 0, z.getD 5 0, z.getD 10 0, z.getD 15 0,
    z.getD 6 0, z.getD 7 0, z.getD 8 0, z.getD 9 0].map (toBytesLE 4)).flatten

/-- Concatenation of `n` consecutive Salsa20 keystream blocks. -/
def salsa20Blocks (key nonce8 : Bytes) : Nat → Nat → Bytes
  | 0, _ => []
  | n + 1, ctr => salsa20Block key nonce8 ctr ++ salsa20Blocks key nonce8 n (ctr + 1)

/-- The first `len` bytes of the XSalsa20 keystream for a 24-byte nonce:
HSalsa20 subkey from the first 16 nonce bytes, then Salsa20 with the
remaining 8 nonce bytes and counter starting at 0. -/
def xsalsa20Keystream (key nonce : Bytes) (len : Nat) : Bytes :=
  let subkey := hsalsa20 key (jsSlice nonce 0 16)
  (salsa20Blocks subkey (jsSlice nonce 16 24) ((len + 63) / 64) 0).take len

/-- The Poly1305 prime `2^130 - 5`. -/
def p1305 : Nat := 2 ^ 130 - 5

/-- Poly1305 accumulator over 16-byte blocks (fuel-structural). -/
def poly1305Blocks : Nat → Nat → Nat → Bytes → Nat
  | 0, _, acc, _ => acc
  | _ + 1, _, acc, [] => acc
  | fuel + 1, r, acc, msg =>
    let c := msg.take 16
    let n := bytesToNatLE c + 2 ^ (8 * c.length)
    poly1305Blocks fuel r ((acc + n) * r % p1305) (msg.drop 16)

/-- Poly1305 MAC: clamp `r` from the first 16 key bytes, accumulate the
message, add `s` from the last 16 key bytes, serialize 16 bytes LE. -/
def poly1305 (key msg : Bytes) : Bytes :=
  let r := bytesToNatLE (jsSlice key 0 16) &&& 0x0ffffffc0ffffffc0ffffffc0fffffff
  let s := bytesToNatLE (jsSlice key 16 32)
  toBytesLE 16 ((poly1305Blocks msg.length r 0 msg + s) % 2 ^ 128)

/-- The failure modes of the noble secretbox: thrown `Error`s in the
source, each with a distinct message, modelled as distinct constructors. -/
inductive SecretBoxError where
  | invalidKey : SecretBoxError
  | invalidNonce : SecretBoxError
  | invalidCiphertextLength : SecretBoxError
  | invalidTag : SecretBoxError
deriving DecidableEq

/-- `secretbox(key, nonce).seal(plaintext)` of `@noble/ciphers/salsa`
(NaCl construction): the first 32 keystream bytes key Poly1305, the rest
encrypts; output is `tag(16) ‖ ciphertext`. -/
def secretboxSeal (key nonce plaintext : Bytes) : Except SecretBoxError Bytes :=
  if key.length ≠ 32 then .error .invalidKey
  else if nonce.length ≠ 24 then .error .invalidNonce
  else
    let ks := xsalsa20Keystream key nonce (32 + plaintext.length)
    let c := List.zipWith (fun p k => p ^^^ k) plaintext (ks.drop 32)
    .ok (poly1305 (ks.take 32) c ++ c)

/-- `secretbox(key, nonce).open(data)` of `@noble/ciphers/salsa`: rejects
short input, recomputes the Poly1305 tag, and only on a match returns the
full XOR decryption. -/
def secretboxOpen (key nonce data : Bytes) : Except SecretBoxError Bytes :=
  if key.length ≠ 32 then .error .invalidKey
  else if nonce.length ≠ 24 then .error .invalidNonce
  else if data.length < 16 then .error .invalidCiphertextLength
  else
    let tag := data.take 16
    let c := data.drop 16
    let ks := xsalsa20Keystream key nonce (32 + c.length)
    if poly1305 (ks.take 32) c ≠ tag then .error .invalidTag
    else .ok (List.zipWith (fun x k => x ^^^ k) c (ks.drop 32))

/-- Embedding of `SecretBoxLive.seal` (Crypto.ts lines 101-106): draw a
24-byte nonce from the secure RNG — modelled as the explicit `nonce`
argument — and return `concatBytes(nonce, secretbox(key, nonce).seal(p))`. -/
def sealEv (key nonce plaintext : Bytes) : Except SecretBoxError Bytes :=
  (secretboxSeal key nonce plaintext).map (fun c => nonce ++ c)

/-- Embedding of `SecretBoxLive.open` (Crypto.ts lines 107-112):
`nonce = ciphertext.subarray(0, 24)`, the rest is opened by the noble
secretbox. -/
def openEv (key ciphertext : Bytes) : Except SecretBoxError Bytes :=
  secretboxOpen key (ciphertext.take 24) (ciphertext.drop 24)

/-- The Poly1305 tag `openEv` recomputes for a ciphertext. -/
def openEvExpectedTag (key c : Bytes) : Bytes :=
  let body := (c.drop 24).drop 16
  poly1305 ((xsalsa20Keystream key (c.take 24) (32 + body.length)).take 32) body

/-- The tag stored in a sealed ciphertext (bytes 24 to 40). -/
def openEvStoredTag (c : Bytes) : Bytes := (c.drop 24).take 16

/-! ## NodeId validation and generation -/

/-- One character of the JS regex class `[\w-]`: ASCII letter, digit,
underscore or hyphen. -/
def isWordCharOrHyphen (c : Char) : Bool :=
  ('a' ≤ c && c ≤ 'z') || ('A' ≤ c && c ≤ 'Z') || ('0' ≤ c && c ≤ '9') ||
    c == '_' || c == '-'

/-- Embedding of the source's NodeId schema (Crypto.ts lines 57-61): the
validating constructor accepts exactly the strings matching `/^[\w-]{16}$/`. -/
def nodeIdAccepts (s : String) : Bool :=
  s.data.length == 16 && s.data.all isWordCharOrHyphen

/-- One lowercase hexadecimal digit. -/
def isLowerHexChar (c : Char) : Bool :=
  ('0' ≤ c && c ≤ '9') || ('a' ≤ c && c ≤ 'f')

/-- The spec's stated NodeId format (§3): `^[0-9a-f]{16}$`. -/
def matchesHex16 (s : String) : Bool :=
  s.data.length == 16 && s.data.all isLowerHexChar

/-- The alphabet passed to `customAlphabet` for NodeId generation. -/
def nodeIdAlphabet : List Char := "0123456789abcdef".data

/-- Modelled from the spec (§4.4 IdentifierGenerator): the nanoid
`customAlphabet(alphabet, size)` generator is an external dependency of
the repository; each output character is one uniform draw from the given
alphabet via the secure RNG, modelled as an index reduced into the
alphabet; `size` characters are produced from the supplied draws. -/
def customAlphabetGen (alphabet : List Char) (size : Nat) (draws : List Nat) : String :=
  String.mk ((draws.take size).map (fun i => alphabet.getD (i % alphabet.length) '0'))

/-- Embedding of `nanoidForNodeId = customAlphabet("0123456789abcdef", 16)`
(Crypto.ts line 63), the generator behind `nanoidAsNodeId` (line 50). -/
def nanoidForNodeId (draws : List Nat) : String :=
  customAlphabetGen nodeIdAlphabet 16 draws

/-- Decidable equality of secretbox results, for concrete evaluation. -/
instance : DecidableEq (Except SecretBoxError Bytes) := fun a b =>
  match a, b with
  | .ok x, .ok y =>
    if h : x = y then .isTrue (by rw [h]) else .isFalse (by simp [h])
  | .error x, .error y =>
    if h : x = y then .isTrue (by rw [h]) else .isFalse (by simp [h])
  | .ok _, .error _ => .isFalse (by simp)
  | .error _, .ok _ => .isFalse (by simp)

/-- The seed of the published SLIP-0021 example (derived from the
"all all … all" test mnemonic), hex `c76c4ac4…02ac8`. -/
def slip21DocumentedSeed : Bytes := [
  199, 108, 74, 196, 244, 228, 160, 13, 107, 39, 77, 92, 57, 199, 0, 187, 74,
  125, 220, 4, 251, 198, 247, 142, 133, 202, 117, 0, 123, 91, 73, 95, 116,
  169, 4, 62, 235, 119, 189, 213, 58, 166, 252, 58, 14, 49, 70, 34, 112, 49,
  111, 160, 75, 140, 25, 17, 76, 135, 152, 112, 108, 208, 42, 200]

/-- The published SLIP-0021 reference key for the path `["SLIP-0021"]`
over the documented seed, hex `1d065e3a…de0d`. -/
def slip21PublishedVector : Bytes := [
  29, 6, 94, 58, 193, 187, 229, 199, 250, 211, 44, 242, 48, 95, 125, 112, 157,
  192, 112, 214, 114, 4, 74, 25, 230, 16, 199, 124, 223, 51, 222, 13]

/-- The published SLIP-0021 master node key (empty path) for the
documented seed, hex `dbf12b44…4756`. -/
def slip21PublishedMasterKey : Bytes := [
  219, 241, 43, 68, 19, 62, 170, 181, 6, 167, 64, 246, 86, 92, 193, 23, 34,
  140, 191, 29, 215, 6, 53, 207, 168, 221, 253, 201, 175, 115, 71, 86]

/-! ## Basic length lemmas -/

theorem length_toBytesBE (n x : Nat) : (toBytesBE n x).length = n := by
  induction n generalizing x with
  | zero => rfl
  | succ n ih => simp [toBytesBE, ih]

theorem length_toBytesLE (n x : Nat) : (toBytesLE n x).length = n := by
  induction n generalizing x with
  | zero => rfl
  | succ n ih => simp [toBytesLE, ih]

theorem length_sha512Compress (H : List Nat) (b : Bytes) :
    (sha512Compress H b).length = 8 := by
  simp [sha512Compress]

theorem length_foldl_sha512Compress (blocks : List Bytes) (H : List Nat)
    (h : H.length = 8) : (blocks.foldl sha512Compress H).length = 8 := by
  induction blocks generalizing H with
  | nil => simpa using h
  | cons b bs ih => exact ih _ (length_sha512Compress H b)

theorem length_flatten_toBytesBE (H : List Nat) :
    ((H.map (toBytesBE 8)).flatten).length = 8 * H.length := by
  induction H with
  | nil => rfl
  | cons x xs ih => simp [ih, length_toBytesBE]; ring

theorem sha512_length (msg : Bytes) : (sha512 msg).length = 64 := by
  unfold sha512
  rw [length_flatten_toBytesBE, length_foldl_sha512Compress _ _ (by rfl)]

theorem hmacSha512_length (key msg : Bytes) : (hmacSha512 key msg).length = 64 := by
  unfold hmacSha512
  exact sha512_length _

/-! ## C1: the SLIP-21 loop computes the spec's recursion -/

theorem slip21_e_eq (p : Bytes) :
    uint8ArraySet ((List.replicate (p.length + 1) 0).set 0 0) p 1 = 0 :: p := by
  simp only [List.replicate_succ, List.set_cons_zero, uint8ArraySet]
  have h1 : (0 :: List.replicate p.length 0).take 1 = [0] := by
    simp [List.take_succ_cons]
  have h2 : (0 :: List.replicate p.length 0).drop (1 + p.length) = [] := by
    apply List.drop_eq_nil_of_le
    simp [Nat.add_comm]
  rw [h1, h2]
  simp

theorem slip21Step_eq (m : Bytes) (l : String) :
    slip21Step m l = hmacSha512 (jsSlice m 0 32) (0 :: utf8Encode l) := by
  simp only [slip21Step]
  rw [slip21_e_eq]

theorem slip21_foldl_eq_specNode (path : List String) (m : Bytes) :
    jsSlice (path.foldl slip21Step m) 32 64 = slip21SpecNode m path := by
  induction path generalizing m with
  | nil => rfl
  | cons l ls ih =>
    simp only [List.foldl_cons, slip21SpecNode, slip21Step_eq]
    exact ih _

theorem length_foldl_slip21Step (path : List String) (m : Bytes)
    (h : m.length = 64) : (path.foldl slip21Step m).length = 64 := by
  induction path generalizing m with
  | nil => simpa using h
  | cons l ls ih =>
    simp only [List.foldl_cons]
    exact ih _ (by rw [slip21Step_eq]; exact hmacSha512_length _ _)

/-- C1: for every seed and path, `slip21Derive` computes
`m = HMAC-SHA512("Symmetric key seed", seed)`, then for each label in
path order `m = HMAC-SHA512(m[0:32], 0x00 ‖ utf8(label))`, and returns
`m[32:64]` — a 32-byte SubKey; for the empty path this is the upper half
of the root expansion directly. -/
theorem slip21Derive_spec (seed : Bytes) (path : List String) :
    slip21Derive seed path = slip21SpecDerive seed path ∧
      (slip21Derive seed path).length = 32 := by
  constructor
  · unfold slip21Derive slip21SpecDerive
    exact slip21_foldl_eq_specNode path _
  · unfold slip21Derive jsSlice
    have h : (List.foldl slip21Step
        (hmacSha512 (utf8Encode "Symmetric key seed") seed) path).length = 64 :=
      length_foldl_slip21Step path _ (hmacSha512_length _ _)
    simp [List.length_take, h]

/-- C9: `slip21Derive` is a pure, deterministic function of its inputs —
equal seeds and equal paths give byte-identical outputs, with no
randomness consumed. -/
theorem slip21Derive_deterministic (s₁ s₂ : Bytes) (p₁ p₂ : List String)
    (hs : s₁ = s₂) (hp : p₁ = p₂) :
    slip21Derive s₁ p₁ = slip21Derive s₂ p₂ := by
  rw [hs, hp]

/-- Witness for C9 at a concrete seed and path. -/
theorem slip21Derive_deterministic_witness :
    ([(5 : Nat), 6] : Bytes) = [5, 6] ∧
      slip21Derive [5, 6] ["a"] = slip21Derive [5, 6] ["a"] :=
  ⟨rfl, slip21Derive_deterministic [5, 6] [5, 6] ["a"] ["a"] rfl rfl⟩

/-! ## C4: what the NodeId validating constructor actually accepts -/

/-- C4 counterexample: the source's NodeId schema pattern is
`/^[\w-]{16}$/`, not `^[0-9a-f]{16}$` — the validator accepts a
16-character uppercase string that the spec's hex format rejects. -/
theorem nodeId_hex_claim_counterexample :
    nodeIdAccepts "AAAAAAAAAAAAAAAA" = true ∧
      matchesHex16 "AAAAAAAAAAAAAAAA" = false := by
  constructor <;> decide

/-- C4 amended: every value admitted by the NodeId validating
constructor matches `^[\w-]{16}$` — 16 characters, each an ASCII
letter, digit, underscore or hyphen (the lowercase-hex guarantee holds
only for generated NodeIds, not for the validator). -/
theorem nodeIdAccepts_word_pattern (s : String) (h : nodeIdAccepts s = true) :
    s.data.length = 16 ∧ ∀ c ∈ s.data, isWordCharOrHyphen c = true := by
  unfold nodeIdAccepts at h
  rw [Bool.and_eq_true, beq_iff_eq, List.all_eq_true] at h
  exact h

/-- Witness for C4's amended claim at a concrete accepted string. -/
theorem nodeIdAccepts_word_pattern_witness :
    nodeIdAccepts "0123456789abcdef" = true ∧
      ("0123456789abcdef".data.length = 16 ∧
        ∀ c ∈ "0123456789abcdef".data, isWordCharOrHyphen c = true) :=
  ⟨by decide, nodeIdAccepts_word_pattern "0123456789abcdef" (by decide)⟩

/-! ## C6: generated NodeIds are 16 lowercase-hex characters -/

theorem nodeIdAlphabet_hex (k : Nat) (h : k < 16) :
    isLowerHexChar (nodeIdAlphabet.getD k '0') = true := by
  revert k
  decide

/-- C6: every identifier produced by the NodeId generator
(`nanoidForNodeId`, behind `nanoidAsNodeId`) matches `^[0-9a-f]{16}$`:
16 draws from the secure RNG, each mapped into the 16-character
lowercase-hex alphabet. -/
theorem nanoidForNodeId_hex (draws : List Nat) (h : 16 ≤ draws.length) :
    matchesHex16 (nanoidForNodeId draws) = true := by
  have hdata : (nanoidForNodeId draws).data
      = (draws.take 16).map (fun i => nodeIdAlphabet.getD (i % 16) '0') := rfl
  unfold matchesHex16
  rw [hdata, Bool.and_eq_true]
  constructor
  · simp [List.length_take, Nat.min_eq_left h]
  · rw [List.all_eq_true]
    intro x hx
    rw [List.mem_map] at hx
    obtain ⟨i, _, rfl⟩ := hx
    exact nodeIdAlphabet_hex (i % 16) (Nat.mod_lt i (by norm_num))

/-- Witness for C6 at 16 concrete RNG draws. -/
theorem nanoidForNodeId_hex_witness :
    16 ≤ (List.range 16).length ∧
      matchesHex16 (nanoidForNodeId (List.range 16)) = true :=
  ⟨by decide, nanoidForNodeId_hex (List.range 16) (by decide)⟩

/-! ## C8: the SLIP-21 known vector

The SLIP-0021 standard documents exactly one example: the seed
`c76c4ac4…02ac8` obtained from the twelve-word test mnemonic
"all all all all all all all all all all all all" (no all-zero seed
appears anywhere in the standard), with the master node key
`dbf12b44…4756` and the key `1d065e3a…de0d` for `m/"SLIP-0021"`. The
claim's "all-zero test seed", read literally as 64 zero bytes, does not
reproduce the published output; the documented seed does. -/

set_option maxRecDepth 1000000 in
/-- C8 counterexample: the claim as stated, at the explicit input it
names — on the all-zero 64-byte seed `List.replicate 64 0` and the
path `["SLIP-0021"]`, `slip21Derive` does not return the published
SLIP-0021 reference output (it returns `2c158e69…a039` instead). -/
theorem slip21_zero_seed_counterexample :
    slip21Derive (List.replicate 64 0) ["SLIP-0021"] ≠ slip21PublishedVector := by
  decide

set_option maxRecDepth 1000000 in
/-- C8 amended: for the documented SLIP-0021 test seed (`c76c4ac4…02ac8`)
and the single-label path `["SLIP-0021"]`, `slip21Derive` reproduces the
published 32-byte reference output `1d065e3a…de0d`. -/
theorem slip21_known_vector :
    slip21Derive slip21DocumentedSeed ["SLIP-0021"] = slip21PublishedVector := by
  decide

set_option maxRecDepth 1000000 in
/-- Corroboration of the seed identification behind C8's amendment: the
same documented seed also reproduces the published SLIP-0021 master
node key `dbf12b44…4756` for the empty path, so the embedding matches
the standard's whole published example, not one value by accident. -/
theorem slip21_documented_master_node :
    slip21Derive slip21DocumentedSeed [] = slip21PublishedMasterKey := by
  decide

/-! ## Length lemmas for the secretbox -/

theorem length_flatten_toBytesLE (ws : List Nat) :
    ((ws.map (toBytesLE 4)).flatten).length = 4 * ws.length := by
  induction ws with
  | nil => rfl
  | cons x xs ih => simp [ih, length_toBytesLE]; ring

theorem length_salsaQR (st : List Nat) (ia ib ic id : Nat) :
    (salsaQR st ia ib ic id).length = st.length := by
  simp [salsaQR, List.length_set]

theorem length_salsaColumnRound (st : List Nat) :
    (salsaColumnRound st).length = st.length := by
  simp [salsaColumnRound, length_salsaQR]

theorem length_salsaRowRound (st : List Nat) :
    (salsaRowRound st).length = st.length := by
  simp [salsaRowRound, length_salsaQR]

theorem length_salsaDoubleRounds (n : Nat) (st : List Nat) :
    (salsaDoubleRounds n st).length = st.length := by
  induction n generalizing st with
  | zero => rfl
  | succ n ih =>
    simp only [salsaDoubleRounds]
    rw [ih, length_salsaRowRound, length_salsaColumnRound]

theorem length_salsaInit (key : Bytes) (input : List Nat) :
    (salsaInit key input).length = 16 := by
  simp [salsaInit]

theorem length_salsa20Block (key n8 : Bytes) (ctr : Nat) :
    (salsa20Block key n8 ctr).length = 64 := by
  simp only [salsa20Block]
  rw [length_flatten_toBytesLE, List.length_zipWith, length_salsaDoubleRounds,
    length_salsaInit]
  norm_num

theorem length_salsa20Blocks (key n8 : Bytes) (n ctr : Nat) :
    (salsa20Blocks key n8 n ctr).length = 64 * n := by
  induction n generalizing ctr with
  | zero => rfl
  | succ n ih =>
    simp only [salsa20Blocks, List.length_append, length_salsa20Block, ih]
    ring

theorem length_xsalsa20Keystream (key nonce : Bytes) (len : Nat) :
    (xsalsa20Keystream key nonce len).length = len := by
  simp only [xsalsa20Keystream]
  rw [List.length_take, length_salsa20Blocks]
  omega

theorem length_poly1305 (key msg : Bytes) : (poly1305 key msg).length = 16 := by
  simp only [poly1305]
  exact length_toBytesLE _ _

theorem zipWith_xor_cancel (p k : Bytes) (h : p.length ≤ k.length) :
    List.zipWith (fun x y => x ^^^ y)
      (List.zipWith (fun x y => x ^^^ y) p k) k = p := by
  induction p generalizing k with
  | nil => simp
  | cons a as ih =>
    cases k with
    | nil => simp at h
    | cons b bs =>
      simp only [List.zipWith_cons_cons]
      rw [Nat.xor_cancel_right, ih bs (by simpa using h)]

/-! ## The seal equation and the round trip -/

theorem secretboxSeal_eq (key nonce p : Bytes) (hk : key.length = 32)
    (hn : nonce.length = 24) :
    secretboxSeal key nonce p =
      .ok (poly1305 ((xsalsa20Keystream key nonce (32 + p.length)).take 32)
          (List.zipWith (fun x y => x ^^^ y) p
            ((xsalsa20Keystream key nonce (32 + p.length)).drop 32)) ++
        List.zipWith (fun x y => x ^^^ y) p
          ((xsalsa20Keystream key nonce (32 + p.length)).drop 32)) := by
  simp [secretboxSeal, hk, hn]

theorem secretbox_open_seal (key nonce p : Bytes) (hk : key.length = 32)
    (hn : nonce.length = 24) :
    secretboxOpen key nonce
      (poly1305 ((xsalsa20Keystream key nonce (32 + p.length)).take 32)
          (List.zipWith (fun x y => x ^^^ y) p
            ((xsalsa20Keystream key nonce (32 + p.length)).drop 32)) ++
        List.zipWith (fun x y => x ^^^ y) p
          ((xsalsa20Keystream key nonce (32 + p.length)).drop 32)) = .ok p := by
  have hks := length_xsalsa20Keystream key nonce (32 + p.length)
  have hksd : ((xsalsa20Keystream key nonce (32 + p.length)).drop 32).length
      = p.length := by
    rw [List.length_drop, hks]; omega
  have hc : (List.zipWith (fun x y => x ^^^ y) p
      ((xsalsa20Keystream key nonce (32 + p.length)).drop 32)).length = p.length := by
    rw [List.length_zipWith, hksd, Nat.min_self]
  have htag := length_poly1305
    ((xsalsa20Keystream key nonce (32 + p.length)).take 32)
    (List.zipWith (fun x y => x ^^^ y) p
      ((xsalsa20Keystream key nonce (32 + p.length)).drop 32))
  simp only [secretboxOpen]
  rw [if_neg (by simp [hk]), if_neg (by simp [hn]),
    if_neg (by rw [List.length_append, htag]; omega)]
  rw [List.take_left' htag, List.drop_left' htag, hc]
  rw [if_neg (by simp)]
  rw [zipWith_xor_cancel p _ (le_of_eq hksd.symm)]

/-- C2: round trip — for every 32-byte key, every 24-byte nonce the
secure RNG supplies during `seal`, and every plaintext,
`open(K, seal(K, P))` succeeds and returns exactly `P`. -/
theorem secretBox_roundtrip (key nonce p : Bytes) (hk : key.length = 32)
    (hn : nonce.length = 24) :
    (sealEv key nonce p).bind (openEv key) = .ok p := by
  rw [sealEv, secretboxSeal_eq key nonce p hk hn]
  show openEv key (nonce ++ _) = .ok p
  rw [openEv, List.take_left' hn, List.drop_left' hn]
  exact secretbox_open_seal key nonce p hk hn

/-- Witness for C2 at a concrete key, nonce and plaintext. -/
theorem secretBox_roundtrip_witness :
    (List.replicate 32 1).length = 32 ∧ (List.replicate 24 2).length = 24 ∧
      (sealEv (List.replicate 32 1) (List.replicate 24 2) [9, 0, 255]).bind
        (openEv (List.replicate 32 1)) = .ok [9, 0, 255] :=
  ⟨by decide, by decide,
    secretBox_roundtrip (List.replicate 32 1) (List.replicate 24 2) [9, 0, 255]
      (by decide) (by decide)⟩

/-- C5: for every 32-byte key and 24-byte RNG nonce, `seal` returns
`nonce ‖ c` with `c` the XSalsa20-Poly1305 sealing of the plaintext
(16-byte tag plus the plaintext length); the output length is
`len(P) + 40 ≥ 40` and the nonce occupies the first 24 bytes. -/
theorem secretBox_seal_format (key nonce p : Bytes) (hk : key.length = 32)
    (hn : nonce.length = 24) :
    ∃ c, secretboxSeal key nonce p = .ok c ∧
      sealEv key nonce p = .ok (nonce ++ c) ∧
      c.length = p.length + 16 ∧
      (nonce ++ c).take 24 = nonce ∧
      (nonce ++ c).length = p.length + 40 := by
  have hks := length_xsalsa20Keystream key nonce (32 + p.length)
  have hksd : ((xsalsa20Keystream key nonce (32 + p.length)).drop 32).length
      = p.length := by
    rw [List.length_drop, hks]; omega
  refine ⟨_, secretboxSeal_eq key nonce p hk hn, ?_, ?_, ?_, ?_⟩
  · rw [sealEv, secretboxSeal_eq key nonce p hk hn]
    rfl
  · rw [List.length_append, length_poly1305, List.length_zipWith, hksd,
      Nat.min_self]
    omega
  · exact List.take_left' hn
  · rw [List.length_append, hn, List.length_append, length_poly1305,
      List.length_zipWith, hksd, Nat.min_self]
    omega

/-- Witness for C5 at a concrete key, nonce and plaintext. -/
theorem secretBox_seal_format_witness :
    ∃ c, secretboxSeal (List.replicate 32 5) (List.replicate 24 6) [1, 2] = .ok c ∧
      sealEv (List.replicate 32 5) (List.replicate 24 6) [1, 2] =
        .ok (List.replicate 24 6 ++ c) ∧
      c.length = [1, 2].length + 16 ∧
      (List.replicate 24 6 ++ c).take 24 = List.replicate 24 6 ∧
      (List.replicate 24 6 ++ c).length = [1, 2].length + 40 :=
  secretBox_seal_format (List.replicate 32 5) (List.replicate 24 6) [1, 2]
    (by decide) (by decide)

/-- C3: `open` fails on every input shorter than 40 bytes; on longer
input a Poly1305 tag mismatch yields the distinct authentication error
`invalidTag`; and any successful `open` returns the exact original
plaintext — re-sealing it under the extracted nonce reproduces the
ciphertext byte for byte, so no partial or garbage plaintext escapes. -/
theorem secretBox_open_error_handling (key c : Bytes) (hk : key.length = 32) :
    (c.length < 40 → ∃ e, openEv key c = .error e) ∧
    (40 ≤ c.length → openEvExpectedTag key c ≠ openEvStoredTag c →
      openEv key c = .error .invalidTag) ∧
    (∀ p, openEv key c = .ok p → sealEv key (c.take 24) p = .ok c) := by
  refine ⟨?_, ?_, ?_⟩
  · intro hlt
    unfold openEv
    simp only [secretboxOpen]
    rw [if_neg (by simp [hk])]
    by_cases h24 : c.length < 24
    · rw [if_pos (by rw [List.length_take]; omega)]
      exact ⟨_, rfl⟩
    · rw [if_neg (by rw [List.length_take]; omega),
        if_pos (by rw [List.length_drop]; omega)]
      exact ⟨_, rfl⟩
  · intro hge hneq
    simp only [openEvExpectedTag, openEvStoredTag] at hneq
    unfold openEv
    simp only [secretboxOpen]
    rw [if_neg (by simp [hk]),
      if_neg (by rw [List.length_take]; omega),
      if_neg (by rw [List.length_drop]; omega),
      if_pos hneq]
  · intro p hp
    unfold openEv at hp
    simp only [secretboxOpen] at hp
    rw [if_neg (by simp [hk])] at hp
    by_cases h24 : (c.take 24).length ≠ 24
    · rw [if_pos h24] at hp; simp at hp
    rw [if_neg h24] at hp
    by_cases h16 : (c.drop 24).length < 16
    · rw [if_pos h16] at hp; simp at hp
    rw [if_neg h16] at hp
    by_cases htag : poly1305 ((xsalsa20Keystream key (c.take 24)
        (32 + ((c.drop 24).drop 16).length)).take 32) ((c.drop 24).drop 16)
        ≠ (c.drop 24).take 16
    · rw [if_pos htag] at hp; simp at hp
    rw [if_neg htag] at hp
    push_neg at h24 htag
    have hks := length_xsalsa20Keystream key (c.take 24)
      (32 + ((c.drop 24).drop 16).length)
    have hksd : ((xsalsa20Keystream key (c.take 24)
        (32 + ((c.drop 24).drop 16).length)).drop 32).length
        = ((c.drop 24).drop 16).length := by
      rw [List.length_drop, hks]; omega
    have hp' : List.zipWith (fun x y => x ^^^ y) ((c.drop 24).drop 16)
        ((xsalsa20Keystream key (c.take 24)
          (32 + ((c.drop 24).drop 16).length)).drop 32) = p := by
      injection hp
    have hplen : p.length = ((c.drop 24).drop 16).length := by
      rw [← hp', List.length_zipWith, hksd, Nat.min_self]
    rw [sealEv, secretboxSeal_eq key (c.take 24) p hk h24]
    rw [show 32 + p.length = 32 + ((c.drop 24).drop 16).length by omega]
    rw [← hp']
    rw [zipWith_xor_cancel _ _ (le_of_eq hksd.symm)]
    rw [htag]
    show Except.ok (c.take 24 ++ ((c.drop 24).take 16 ++ (c.drop 24).drop 16)) = _
    rw [List.take_append_drop, List.take_append_drop]

/-- Witness for C3 at a concrete key and a short ciphertext. -/
theorem secretBox_open_error_handling_witness :
    ∃ e, openEv (List.replicate 32 3) (List.replicate 12 0) = .error e :=
  (secretBox_open_error_handling (List.replicate 32 3) (List.replicate 12 0)
    (by decide)).1 (by decide)
